import Mathlib

/-!
Verification of the TreebeardHQ python SDK core against its specification.

The development shallowly embeds the parts of the code the claims are
about:

* `treebeard_flask.py` (`TreebeardFlask.instrument.start_trace`): the
  inbound trace-continuation header parsing.  Python strings are embedded
  as `List Char`; `str.split` on a single dash is embedded by
  `pySplitDash`, which mirrors CPython semantics (empty pieces are kept).
* `exporters.py` (`LogSenderWorker.run/stop`,
  `TreebeardExporter.start_worker/stop_worker/_send_logs/_send_objects`):
  the worker loop is embedded as a function over the queue contents, the
  delivery loop as a fuel recursion over an environment assigning each
  attempt its outcome (transport error, non-2xx response, or an ok
  response whose body may or may not decode), and the worker lifecycle as
  a small state machine.  Python objects passed to `send_logs_async`
  are embedded as references into an object store (`PyHeap`), because
  CPython passes containers by reference and `_send_logs` serializes
  the payload — recursively dereferencing the object graph and
  reading the exporter's `_project_name` — only at delivery time.
* `treebeard_trace.py` (`treebeard_trace`): the wrapper is embedded as a
  function from the wrapped call outcome (normal return or raised
  exception) to the returned-or-reraised outcome plus the ordered list
  of span/log/context effects it performs.

All definitions are computable and all branches are translated from the
source; exceptions in python are embedded as `Except`/`Option` values,
so totality of the Lean functions reflects the fact that the embedded
code paths return (or re-raise deliberately) rather than crash.
-/

namespace TreebeardSDK

/-! ## Python strings and `str.split` on a dash -/

/-- A python string, embedded as its list of characters. -/
abbrev PyStr := List Char

/-- Accumulator version of python `s.split("-")`: `acc` holds the
characters of the current piece in reverse. -/
def splitDashAux : List Char → List Char → List (List Char)
  | [], acc => [acc.reverse]
  | c :: cs, acc =>
    if c = '-' then acc.reverse :: splitDashAux cs []
    else splitDashAux cs (c :: acc)

/-- Python `s.split("-")`: splits on every dash, keeping empty pieces,
always returning at least one piece. -/
def pySplitDash (s : PyStr) : List PyStr := splitDashAux s []

/-- Python `a or b` on two optional strings (`headers.get` results):
`a` wins unless it is `None` or empty (falsy). -/
def pyOrStrOpt (a b : Option PyStr) : Option PyStr :=
  match a with
  | some s => if s = [] then b else some s
  | none => b

/-- The header-parsing block of `start_trace` (treebeard_flask.py lines
68-74), applied to a non-`None` `trace_id` value: if the value contains
a dash and splits into at least three parts, the parent context is the
concatenation `parts[1] + parts[2]`; otherwise there is no parent
context.  The surrounding `if trace_id:` truthiness test is the
emptiness check. -/
def parseTraceHeader (t : PyStr) : Option PyStr :=
  if t = [] then none
  else if '-' ∈ t then
    let parts := pySplitDash t
    if 3 ≤ parts.length then some (parts.getD 1 [] ++ parts.getD 2 [])
    else none
  else none

/-- Parent-context computation of `start_trace` (treebeard_flask.py
lines 63-74) from the two relevant request headers:
`trace_id = headers.get("X-Trace-Id") or headers.get("traceparent")`,
then the dash-splitting parse.  `none` for a header means the header is
absent from the request. -/
def startTraceParentContext (xTraceId traceparent : Option PyStr) : Option PyStr :=
  match pyOrStrOpt xTraceId traceparent with
  | none => none
  | some t => parseTraceHeader t

/-! ## The delivery queue worker (`LogSenderWorker`, exporters.py lines 15-38)

The queue contents are embedded as a list of items in FIFO order: the
head is the next item `get` returns.  A `None` put by `stop` is the
`sentinel` item.  A job is the closure put by `send_logs_async` or
`send_objects_async`; what matters to the worker loop is only whether
executing it raises, so a job is embedded as an identifier plus the
outcome of executing it (`Except.error msg` embeds a raised exception
with message `msg`). -/

/-- A queued send closure: an identifier plus the outcome of executing
it (`some m` embeds an exception raised with message `m`, `none` a
normal return). -/
structure JobSpec where
  id : Nat
  raises : Option String
deriving DecidableEq, Repr

/-- One item on the send queue: a job closure or the `None` sentinel. -/
inductive QueueItem where
  | job (j : JobSpec)
  | sentinel
deriving DecidableEq, Repr

/-- Observable behaviour of one run of `LogSenderWorker.run` on given
queue contents: which jobs were executed (in order), which error
messages `sdk_logger.error` received, how many `task_done` calls were
made, and whether the loop terminated via the sentinel `break` (if the
queue contents run out without a sentinel, the real worker blocks in
`get`; `stopped = false` embeds that it has not terminated). -/
structure WorkerTrace where
  executedIds : List Nat
  errorsLogged : List String
  taskDones : Nat
  stopped : Bool
deriving DecidableEq, Repr

/-- `LogSenderWorker.run` (exporters.py lines 23-34): loop `get`ting
items; `break` on the sentinel (before any `try`, so no `task_done` for
it); otherwise execute the job under `try/except` — an exception is
caught and logged, never propagated — and `task_done` in `finally`. -/
def workerRun : List QueueItem → WorkerTrace
  | [] => ⟨[], [], 0, false⟩
  | .sentinel :: _ => ⟨[], [], 0, true⟩
  | .job j :: rest =>
    let r := workerRun rest
    { executedIds := j.id :: r.executedIds
      errorsLogged :=
        (match j.raises with
         | some m => ["Unexpected error in log sender: " ++ m]
         | none => []) ++ r.errorsLogged
      taskDones := r.taskDones + 1
      stopped := r.stopped }

/-- The jobs sitting on the queue ahead of the first sentinel. -/
def jobsBeforeStop : List QueueItem → List JobSpec
  | [] => []
  | .sentinel :: _ => []
  | .job j :: rest => j :: jobsBeforeStop rest

/-- The error message `LogSenderWorker.run` logs for a failing job,
`none` for a job that returns normally. -/
def jobErrorLog (j : JobSpec) : Option String :=
  match j.raises with
  | some m => some ("Unexpected error in log sender: " ++ m)
  | none => none

/-! ## Worker lifecycle (`TreebeardExporter.start_worker` / `stop_worker`,
exporters.py lines 56-70)

The exporter-side lifecycle state is the `_worker` reference (with its
thread aliveness) and the `_worker_started` flag, plus a counter of how
many worker threads were ever constructed, so that idempotence of
`start_worker` is observable.  `stop_worker`'s `join(timeout=10)` may
or may not see the thread finish within the timeout; the parameter
`joinCompletes` embeds that environment choice. -/

/-- The `_worker` thread object: only its `is_alive()` answer matters. -/
structure WorkerHandle where
  alive : Bool
deriving DecidableEq, Repr

/-- Exporter lifecycle state: `_worker`, `_worker_started`, and the
number of worker threads constructed so far. -/
structure ExporterState where
  worker : Option WorkerHandle
  workerStarted : Bool
  createdCount : Nat
deriving DecidableEq, Repr

/-- State of a fresh `TreebeardExporter` (constructor, lines 52-54):
no worker, `_worker_started = False`. -/
def initialExporterState : ExporterState := ⟨none, false, 0⟩

/-- Python `self._worker and self._worker.is_alive()`. -/
def workerIsAlive (s : ExporterState) : Bool :=
  match s.worker with
  | some w => w.alive
  | none => false

/-- `TreebeardExporter.start_worker` (lines 56-63): if
`_worker_started` nothing happens; otherwise a new thread is
constructed and started exactly when there is no worker or it is not
alive, and `_worker_started` is set in either case. -/
def start_worker (s : ExporterState) : ExporterState :=
  if s.workerStarted then s
  else
    let s' :=
      if workerIsAlive s then s
      else { s with worker := some ⟨true⟩, createdCount := s.createdCount + 1 }
    { s' with workerStarted := true }

/-- `TreebeardExporter.stop_worker` (lines 65-70): only if the worker
exists and is alive, the sentinel is enqueued, `join(timeout=10)` waits
(`joinCompletes` says whether the thread finished within the timeout,
leaving `is_alive` false or true accordingly), and `_worker_started`
is reset. -/
def stop_worker (s : ExporterState) (joinCompletes : Bool) : ExporterState :=
  if workerIsAlive s then
    { worker := some ⟨!joinCompletes⟩
      workerStarted := false
      createdCount := s.createdCount }
  else s

/-- A lifecycle request arriving at the exporter. -/
inductive ExporterOp where
  | start
  | stop (joinCompletes : Bool)
deriving DecidableEq, Repr

/-- One lifecycle request applied to the state. -/
def exporterStep (s : ExporterState) : ExporterOp → ExporterState
  | .start => start_worker s
  | .stop j => stop_worker s j

/-- A sequence of lifecycle requests applied in order. -/
def runExporterOps (s : ExporterState) (ops : List ExporterOp) : ExporterState :=
  ops.foldl exporterStep s

/-! ## JSON values and python truthiness

`response.json()` and the values inside it are embedded as `JsonVal`;
`result.get("updated_config")` and the truthiness tests of the callback
condition are embedded below. -/

/-- A decoded JSON value (a python object returned by
`response.json()`). -/
inductive JsonVal where
  | dict (entries : List (String × JsonVal))
  | arr (elems : List JsonVal)
  | str (s : String)
  | num (n : Int)
  | bool (b : Bool)
  | null

/-- Python truthiness of a decoded JSON value. -/
def pyTruthy : JsonVal → Bool
  | .dict es => !es.isEmpty
  | .arr xs => !xs.isEmpty
  | .str s => !s.isEmpty
  | .num n => n != 0
  | .bool b => b
  | .null => false

/-- Python `isinstance(result, dict)`. -/
def isDict : JsonVal → Bool
  | .dict _ => true
  | _ => false

/-- Python `d.get(k)` on the entry list of a dict. -/
def dictLookup (k : String) : List (String × JsonVal) → Option JsonVal
  | [] => none
  | (k', v) :: rest => if k' = k then some v else dictLookup k rest

/-- `result.get("updated_config")` — only meaningful on a dict. -/
def getUpdatedConfig : JsonVal → Option JsonVal
  | .dict es => dictLookup "updated_config" es
  | _ => none

/-- Python truthiness of a `d.get(k)` result (`None` is falsy). -/
def optTruthy : Option JsonVal → Bool
  | none => false
  | some v => pyTruthy v

/-- The callback condition of `_send_logs`/`_send_objects` (exporters.py
lines 120-124 and 165-169): `isinstance(result, dict) and
result.get("updated_config") and update_callback`.  `cb` says whether
an `update_callback` was registered (is not `None`). -/
def callbackFires (cb : Bool) (v : JsonVal) : Bool :=
  isDict v && optTruthy (getUpdatedConfig v) && cb

/-! ## The delivery loop (`_send_logs` / `_send_objects`,
exporters.py lines 92-178)

Each attempt's interaction with the network is embedded as an
`AttemptOutcome` drawn from an environment `env : Nat → AttemptOutcome`
indexed by the attempt counter; the loop itself is a fuel recursion
with `max_retries = 3` units of fuel.  The observable behaviour —
returned value, `sdk_logger` events in order, `time.sleep` calls,
callback invocations, number of attempts — is collected in a
`DeliveryResult`. -/

/-- What one `requests.post` attempt does: the post raises a transport
error, or returns a non-ok response with a status code, or returns an
ok response whose `response.json()` either raises (`none`) or decodes
to a value. -/
inductive AttemptOutcome where
  | postRaise (msg : String)
  | httpError (status : Nat) (text : String)
  | success (body : Option JsonVal)

/-- An `sdk_logger` or `time.sleep` effect of the delivery loop, in
order of occurrence.  `warnAttemptFailed n status` is the warning
`Attempt {n} failed: {status} - ...` (the code logs `attempt+1`);
`errorWhileSending` is the `except` branch error log;
`warnSendingObjects` is the objects-only notice logged before each
post. -/
inductive ExportLogEvent where
  | debugSent
  | warnAttemptFailed (attemptNumber : Nat) (status : Nat)
  | errorWhileSending
  | sleep (seconds : Nat)
  | errorAllAttemptsFailed
  | warnSendingObjects
deriving DecidableEq, Repr

/-- Observable behaviour of one `_send_logs`/`_send_objects` call:
the value returned (`none` embeds python falling off the loop and
returning `None`), the ordered effect log, the arguments of the
callback invocations, and the number of attempts made. -/
structure DeliveryResult where
  returned : Option JsonVal
  events : List ExportLogEvent
  callbackCalls : List JsonVal
  attemptsMade : Nat

/-- The retry loop of `_send_logs` (exporters.py lines 108-133),
starting at attempt counter `attempt` with `fuel` loop iterations left
(`max_retries = 3`, `delay = 1` at the call site).  On an ok response
the debug line is logged, then `response.json()` runs: if it raises,
the `except` branch logs and the loop sleeps and retries; if it
decodes, the callback fires when `callbackFires` holds (with the
`updated_config` value as argument) and the decoded value is returned.
Non-ok responses and transport errors are logged and retried after the
sleep.  When the fuel runs out, `All attempts to send logs failed.` is
logged and `None` is returned. -/
def send_logs_loop (cb : Bool) (env : Nat → AttemptOutcome) : Nat → Nat → DeliveryResult
  | _, 0 => ⟨none, [.errorAllAttemptsFailed], [], 0⟩
  | attempt, fuel + 1 =>
    match env attempt with
    | .postRaise _ =>
      let r := send_logs_loop cb env (attempt + 1) fuel
      ⟨r.returned, .errorWhileSending :: .sleep 1 :: r.events,
        r.callbackCalls, r.attemptsMade + 1⟩
    | .httpError status _ =>
      let r := send_logs_loop cb env (attempt + 1) fuel
      ⟨r.returned, .warnAttemptFailed (attempt + 1) status :: .sleep 1 :: r.events,
        r.callbackCalls, r.attemptsMade + 1⟩
    | .success none =>
      let r := send_logs_loop cb env (attempt + 1) fuel
      ⟨r.returned, .debugSent :: .errorWhileSending :: .sleep 1 :: r.events,
        r.callbackCalls, r.attemptsMade + 1⟩
    | .success (some v) =>
      ⟨some v, [.debugSent],
        if callbackFires cb v then [(getUpdatedConfig v).getD JsonVal.null] else [],
        1⟩

/-- `_send_logs` run from the start: `max_retries = 3` attempts. -/
def send_logs (cb : Bool) (env : Nat → AttemptOutcome) : DeliveryResult :=
  send_logs_loop cb env 0 3

/-- The retry loop of `_send_objects` (exporters.py lines 151-178):
identical to `send_logs_loop` except that every iteration first logs
the `Sending objects to ...` warning (inside the `try`, before the
post). -/
def send_objects_loop (cb : Bool) (env : Nat → AttemptOutcome) : Nat → Nat → DeliveryResult
  | _, 0 => ⟨none, [.errorAllAttemptsFailed], [], 0⟩
  | attempt, fuel + 1 =>
    match env attempt with
    | .postRaise _ =>
      let r := send_objects_loop cb env (attempt + 1) fuel
      ⟨r.returned, .warnSendingObjects :: .errorWhileSending :: .sleep 1 :: r.events,
        r.callbackCalls, r.attemptsMade + 1⟩
    | .httpError status _ =>
      let r := send_objects_loop cb env (attempt + 1) fuel
      ⟨r.returned,
        .warnSendingObjects :: .warnAttemptFailed (attempt + 1) status :: .sleep 1 :: r.events,
        r.callbackCalls, r.attemptsMade + 1⟩
    | .success none =>
      let r := send_objects_loop cb env (attempt + 1) fuel
      ⟨r.returned,
        .warnSendingObjects :: .debugSent :: .errorWhileSending :: .sleep 1 :: r.events,
        r.callbackCalls, r.attemptsMade + 1⟩
    | .success (some v) =>
      ⟨some v, [.warnSendingObjects, .debugSent],
        if callbackFires cb v then [(getUpdatedConfig v).getD JsonVal.null] else [],
        1⟩

/-- `_send_objects` run from the start: `max_retries = 3` attempts. -/
def send_objects (cb : Bool) (env : Nat → AttemptOutcome) : DeliveryResult :=
  send_objects_loop cb env 0 3

/-- Whether an attempt outcome makes the loop retry: a transport
error, a non-ok response, or an ok response whose body fails to
decode. -/
def attemptFails : AttemptOutcome → Bool
  | .postRaise _ => true
  | .httpError _ _ => true
  | .success none => true
  | .success (some _) => false

/-- Modelled from the spec: the update-callback policy, following the
specification sentence `On a successful response, if the decoded
response body carries an updated configuration payload, invoke the
registered update callback with that payload ... This is the only path
by which the client's notion of current config changes`: the
invocations a delivery makes, as a function of whether a callback is
registered and of the value the delivery returned (no successful
return means no invocation). -/
def specCallbackPolicy (cb : Bool) : Option JsonVal → List JsonVal
  | none => []
  | some v =>
    if callbackFires cb v then [(getUpdatedConfig v).getD JsonVal.null] else []

/-! ## Enqueue-time snapshot vs delivery-time payload
(`send_logs_async` / `_send_logs` payload construction,
exporters.py lines 72-80 and 95-104)

`send_logs_async(logs, config_version, update_callback)` builds a
closure over its arguments and enqueues it.  `config_version` is an
immutable `int`, captured by value; `logs` is a python list object,
passed by reference — the closure stores the reference, and
`_send_logs` reads it only when the job runs on the worker and
serializes `json.dumps({"logs": logs, "project_name":
self._project_name, "v": config_version, "sdk_version": 2})` at that
moment.  `json.dumps` dereferences the whole object graph hanging off
the list (the record dicts inside it, the values inside those, and so
on), and it reads the exporter's mutable `_project_name` attribute.
The producer-visible object graph is therefore embedded as a store
`PyHeap` of container objects holding references, serialization as a
recursive dereference (`dumpObj`, with a recursion-depth fuel:
`json.dumps` raises on circular or overdeep structures, embedded as
`Option.none`), and the payload as a function of the store and the
project name as they stand at delivery time. -/

/-- A python object in the producer-visible object graph: containers
hold references (object identities) to their children, leaves are
immutable scalars, `pynone` is python `None`. -/
inductive PyObj where
  | dict (entries : List (String × Nat))
  | list (elems : List Nat)
  | str (s : String)
  | int (n : Int)
  | bool (b : Bool)
  | pynone

/-- The store of python objects: the current object with each
identity.  Producer-side mutation of an object is an update of the
store at its identity. -/
def PyHeap := Nat → PyObj

/-- The mutable producer-side state `_send_logs` reads at delivery
time: the object store and the exporter's `_project_name`. -/
structure ProducerState where
  heap : PyHeap
  projectName : Option String

/-- Sequence a list of optional values (fail if any fails): the spine
of serializing a container's children in order. -/
def seqOption {α : Type} : List (Option α) → Option (List α)
  | [] => some []
  | o :: os =>
    match o, seqOption os with
    | some v, some vs => some (v :: vs)
    | _, _ => Option.none

/-- `json.dumps` on the object `ref`: recursively dereference and
serialize, visiting a dict's entries and a list's elements in order.
`fuel` bounds the recursion depth; exhausting it (`Option.none`)
embeds the exception `json.dumps` raises on circular or overdeep
structures. -/
def dumpObj (heap : PyHeap) : Nat → Nat → Option JsonVal
  | 0, _ => Option.none
  | fuel + 1, ref =>
    match heap ref with
    | .dict es =>
      (seqOption (es.map fun kv => dumpObj heap fuel kv.2)).map fun vs =>
        JsonVal.dict ((es.map Prod.fst).zip vs)
    | .list xs =>
      (seqOption (xs.map fun x => dumpObj heap fuel x)).map JsonVal.arr
    | .str s => some (JsonVal.str s)
    | .int n => some (JsonVal.num n)
    | .bool b => some (JsonVal.bool b)
    | .pynone => some JsonVal.null

/-- The object identities an object directly references. -/
def objSuccs : PyObj → List Nat
  | .dict es => es.map Prod.snd
  | .list xs => xs
  | _ => []

/-- The objects reachable from a root in the store (the root
included): everything `json.dumps` can visit from the root, i.e. the
producer-side state the serialized batch depends on. -/
inductive ReachableFrom (heap : PyHeap) (root : Nat) : Nat → Prop where
  | refl : ReachableFrom heap root root
  | step {a b : Nat} : ReachableFrom heap root a → b ∈ objSuccs (heap a) →
      ReachableFrom heap root b

/-- The data captured by the closure `send_request` at enqueue time
(exporters.py lines 77-80): the reference to the `logs` list object
and the `config_version` value. -/
structure LogBatchJob where
  logsRef : Nat
  configVersion : Option Int

/-- The decoded form of the `json.dumps` payload `_send_logs` builds
(exporters.py lines 99-104); `logs = Option.none` embeds `json.dumps`
raising instead of producing a body. -/
structure LogsPayload where
  logs : Option JsonVal
  project_name : Option String
  v : Option Int
  sdk_version : Nat

/-- The payload `_send_logs` serializes when the dequeued job runs:
the `logs` field is serialized from the referenced list object — and
everything reachable from it — and `project_name` is read from the
exporter, both as they stand at delivery time; only `v` comes from
the enqueue-time capture. -/
def send_logs_payload (st : ProducerState) (job : LogBatchJob) (fuel : Nat) : LogsPayload :=
  { logs := dumpObj st.heap fuel job.logsRef
    project_name := st.projectName
    v := job.configVersion
    sdk_version := 2 }

/-- Python `lst.append(obj)` on the list object `ref`: a producer-side
mutation of that object after enqueue (no effect on a non-list). -/
def pyListAppend (heap : PyHeap) (ref : Nat) (elem : Nat) : PyHeap :=
  fun n =>
    if n = ref then
      match heap ref with
      | .list xs => .list (xs ++ [elem])
      | o => o
    else heap n

/-- Association-list update behind python `d[k] = obj` (insertion
order kept for an existing key, appended for a new one). -/
def setEntry : List (String × Nat) → String → Nat → List (String × Nat)
  | [], k, r => [(k, r)]
  | (k', r') :: rest, k, r =>
    if k' = k then (k, r) :: rest else (k', r') :: setEntry rest k r

/-- Python `d[k] = obj` on the dict object `ref`: a producer-side
mutation of a record nested inside the batch, touching neither the
batch list object nor the record reference it holds. -/
def pyDictSet (heap : PyHeap) (ref : Nat) (k : String) (elem : Nat) : PyHeap :=
  fun n =>
    if n = ref then
      match heap ref with
      | .dict es => .dict (setEntry es k elem)
      | o => o
    else heap n

/-- The object store at enqueue time: the batch list (object 0) holds
one record (object 1), a dict whose `msg` field is the string
object 2; object 3 is python `None`; object 4 is an unrelated empty
list not reachable from the batch. -/
def enqueuePyHeap : PyHeap := fun n =>
  match n with
  | 0 => PyObj.list [1]
  | 1 => PyObj.dict [("msg", 2)]
  | 2 => PyObj.str "hello"
  | 3 => PyObj.pynone
  | 4 => PyObj.list []
  | _ => PyObj.pynone

/-- The producer state at enqueue time. -/
def enqueueProducerState : ProducerState := ⟨enqueuePyHeap, some "proj"⟩

/-- The job enqueued for the batch list (object 0) with config
version 1. -/
def exampleLogBatchJob : LogBatchJob := ⟨0, some 1⟩

/-! ## The trace decorator (`treebeard_trace`, treebeard_trace.py)

The wrapper is embedded as a function of the decorator name, the
wrapped function name, and the outcome of calling the wrapped function
(`Except.error e` embeds a raised exception `e`); it yields the
wrapper's own outcome (return value, or the re-raised exception) plus
the ordered span/log/context effects performed. -/

/-- A python exception: its type name and message. -/
structure PyExc where
  ty : String
  msg : String
deriving DecidableEq, Repr

/-- Span terminal status codes (`SpanStatusCode`). -/
inductive SpanStatusCode where
  | OK
  | ERROR
deriving DecidableEq, Repr

/-- One span/log/context effect of the wrapper, in order of
occurrence. -/
inductive TraceEvent where
  | spanStarted (name : String)
  | logStarted (name : String)
  | spanExceptionEvent (exType exMsg : String)
  | spanEnded (code : SpanStatusCode) (message : Option String)
  | logCompletedSuccess
  | logCompletedError
  | contextCleared
deriving DecidableEq, Repr

/-- Python `name or func.__name__` (a `None` or empty decorator name
falls back to the function name). -/
def pyOrName (name : Option String) (funcName : String) : String :=
  match name with
  | some s => if s.isEmpty then funcName else s
  | none => funcName

/-- The wrapper `treebeard_trace(name)(func)` builds
(treebeard_trace.py lines 28-97), as a function of the wrapped call's
outcome.  Normal return: span started, legacy trace started, function
runs, span ended OK, legacy success, return value; the `finally` block
clears the logging context last.  Exception from the wrapped function:
the span records an exception event, is ended with ERROR status
carrying the exception message, the legacy trace completes with error,
and the same exception is re-raised — the `finally` block still clears
the context. -/
def treebeard_trace_wrapper (name : Option String) (funcName : String)
    (funcOutcome : Except PyExc JsonVal) : Except PyExc JsonVal × List TraceEvent :=
  let spanName := pyOrName name funcName
  match funcOutcome with
  | .ok v =>
    (.ok v,
      [.spanStarted spanName, .logStarted spanName,
        .spanEnded .OK none, .logCompletedSuccess, .contextCleared])
  | .error e =>
    (.error e,
      [.spanStarted spanName, .logStarted spanName,
        .spanExceptionEvent e.ty e.msg,
        .spanEnded .ERROR (some e.msg), .logCompletedError, .contextCleared])

/-- The number of `end_span` calls in an effect log. -/
def countSpanEnds (es : List TraceEvent) : Nat :=
  (es.filter fun e =>
    match e with
    | .spanEnded _ _ => true
    | _ => false).length

/-! ## Lemmas about `pySplitDash` -/

theorem splitDashAux_no_dash (a : List Char) (h : '-' ∉ a) :
    ∀ acc, splitDashAux a acc = [acc.reverse ++ a] := by
  induction a with
  | nil => intro acc; simp [splitDashAux]
  | cons c cs ih =>
    intro acc
    have hc : ¬ c = '-' := fun hc => h (hc ▸ List.mem_cons_self c cs)
    have hcs : '-' ∉ cs := fun hm => h (List.mem_cons_of_mem c hm)
    simp only [splitDashAux, if_neg hc, ih hcs]
    simp

theorem splitDashAux_append (a : List Char) (h : '-' ∉ a) (s : List Char) :
    ∀ acc, splitDashAux (a ++ '-' :: s) acc = (acc.reverse ++ a) :: splitDashAux s [] := by
  induction a with
  | nil => intro acc; simp [splitDashAux]
  | cons c cs ih =>
    intro acc
    have hc : ¬ c = '-' := fun hc => h (hc ▸ List.mem_cons_self c cs)
    have hcs : '-' ∉ cs := fun hm => h (List.mem_cons_of_mem c hm)
    simp only [List.cons_append, splitDashAux, if_neg hc, List.append_eq]
    rw [ih hcs]
    simp

theorem pySplitDash_append (a : PyStr) (h : '-' ∉ a) (s : PyStr) :
    pySplitDash (a ++ '-' :: s) = a :: pySplitDash s := by
  simp [pySplitDash, splitDashAux_append a h s]

theorem pySplitDash_no_dash (a : PyStr) (h : '-' ∉ a) : pySplitDash a = [a] := by
  simp [pySplitDash, splitDashAux_no_dash a h]

theorem splitDashAux_length (s : List Char) :
    ∀ acc, (splitDashAux s acc).length = s.count '-' + 1 := by
  induction s with
  | nil => intro acc; simp [splitDashAux]
  | cons c cs ih =>
    intro acc
    by_cases hc : c = '-'
    · subst hc
      simp [splitDashAux, ih, List.count_cons]
    · simp [splitDashAux, hc, ih, List.count_cons]

theorem pySplitDash_length (s : PyStr) : (pySplitDash s).length = s.count '-' + 1 :=
  splitDashAux_length s []

end TreebeardSDK

namespace TreebeardSDK

/-! ## Lemmas about the delivery loops -/

theorem send_logs_loop_attempts_le (cb : Bool) (env : Nat → AttemptOutcome) :
    ∀ fuel attempt, (send_logs_loop cb env attempt fuel).attemptsMade ≤ fuel := by
  intro fuel
  induction fuel with
  | zero => intro attempt; exact Nat.le_refl 0
  | succ n ih =>
    intro attempt
    cases h : env attempt with
    | postRaise m =>
      simp only [send_logs_loop, h]
      exact Nat.succ_le_succ (ih (attempt + 1))
    | httpError st tx =>
      simp only [send_logs_loop, h]
      exact Nat.succ_le_succ (ih (attempt + 1))
    | success body =>
      cases body with
      | none =>
        simp only [send_logs_loop, h]
        exact Nat.succ_le_succ (ih (attempt + 1))
      | some v =>
        simp only [send_logs_loop, h]
        exact Nat.succ_le_succ (Nat.zero_le n)

theorem send_objects_loop_attempts_le (cb : Bool) (env : Nat → AttemptOutcome) :
    ∀ fuel attempt, (send_objects_loop cb env attempt fuel).attemptsMade ≤ fuel := by
  intro fuel
  induction fuel with
  | zero => intro attempt; exact Nat.le_refl 0
  | succ n ih =>
    intro attempt
    cases h : env attempt with
    | postRaise m =>
      simp only [send_objects_loop, h]
      exact Nat.succ_le_succ (ih (attempt + 1))
    | httpError st tx =>
      simp only [send_objects_loop, h]
      exact Nat.succ_le_succ (ih (attempt + 1))
    | success body =>
      cases body with
      | none =>
        simp only [send_objects_loop, h]
        exact Nat.succ_le_succ (ih (attempt + 1))
      | some v =>
        simp only [send_objects_loop, h]
        exact Nat.succ_le_succ (Nat.zero_le n)

theorem send_logs_loop_sleep_one (cb : Bool) (env : Nat → AttemptOutcome) :
    ∀ fuel attempt d,
      ExportLogEvent.sleep d ∈ (send_logs_loop cb env attempt fuel).events → d = 1 := by
  intro fuel
  induction fuel with
  | zero =>
    intro attempt d hd
    simp [send_logs_loop] at hd
  | succ n ih =>
    intro attempt d hd
    cases h : env attempt with
    | postRaise m =>
      simp [send_logs_loop, h] at hd
      rcases hd with h1 | hd
      · exact h1
      · exact ih (attempt + 1) d hd
    | httpError st tx =>
      simp [send_logs_loop, h] at hd
      rcases hd with h1 | hd
      · exact h1
      · exact ih (attempt + 1) d hd
    | success body =>
      cases body with
      | none =>
        simp [send_logs_loop, h] at hd
        rcases hd with h1 | hd
        · exact h1
        · exact ih (attempt + 1) d hd
      | some v =>
        simp [send_logs_loop, h] at hd

theorem send_objects_loop_sleep_one (cb : Bool) (env : Nat → AttemptOutcome) :
    ∀ fuel attempt d,
      ExportLogEvent.sleep d ∈ (send_objects_loop cb env attempt fuel).events → d = 1 := by
  intro fuel
  induction fuel with
  | zero =>
    intro attempt d hd
    simp [send_objects_loop] at hd
  | succ n ih =>
    intro attempt d hd
    cases h : env attempt with
    | postRaise m =>
      simp [send_objects_loop, h] at hd
      rcases hd with h1 | hd
      · exact h1
      · exact ih (attempt + 1) d hd
    | httpError st tx =>
      simp [send_objects_loop, h] at hd
      rcases hd with h1 | hd
      · exact h1
      · exact ih (attempt + 1) d hd
    | success body =>
      cases body with
      | none =>
        simp [send_objects_loop, h] at hd
        rcases hd with h1 | hd
        · exact h1
        · exact ih (attempt + 1) d hd
      | some v =>
        simp [send_objects_loop, h] at hd

theorem send_logs_loop_all_fail (cb : Bool) (env : Nat → AttemptOutcome) :
    ∀ fuel attempt,
      (∀ i, attempt ≤ i → i < attempt + fuel → attemptFails (env i) = true) →
      (send_logs_loop cb env attempt fuel).returned = none
      ∧ (send_logs_loop cb env attempt fuel).attemptsMade = fuel
      ∧ ExportLogEvent.errorAllAttemptsFailed ∈ (send_logs_loop cb env attempt fuel).events
      ∧ (send_logs_loop cb env attempt fuel).callbackCalls = [] := by
  intro fuel
  induction fuel with
  | zero =>
    intro attempt _
    exact ⟨rfl, rfl, by simp [send_logs_loop], rfl⟩
  | succ n ih =>
    intro attempt hfail
    have hcur : attemptFails (env attempt) = true :=
      hfail attempt (Nat.le_refl _) (by omega)
    have hrest : ∀ i, attempt + 1 ≤ i → i < (attempt + 1) + n → attemptFails (env i) = true :=
      fun i h1 h2 => hfail i (by omega) (by omega)
    obtain ⟨r1, r2, r3, r4⟩ := ih (attempt + 1) hrest
    cases h : env attempt with
    | postRaise m =>
      refine ⟨?_, ?_, ?_, ?_⟩ <;> simp [send_logs_loop, h, r1, r2, r3, r4]
    | httpError st tx =>
      refine ⟨?_, ?_, ?_, ?_⟩ <;> simp [send_logs_loop, h, r1, r2, r3, r4]
    | success body =>
      cases body with
      | none =>
        refine ⟨?_, ?_, ?_, ?_⟩ <;> simp [send_logs_loop, h, r1, r2, r3, r4]
      | some v =>
        rw [h] at hcur
        simp [attemptFails] at hcur

theorem send_objects_loop_all_fail (cb : Bool) (env : Nat → AttemptOutcome) :
    ∀ fuel attempt,
      (∀ i, attempt ≤ i → i < attempt + fuel → attemptFails (env i) = true) →
      (send_objects_loop cb env attempt fuel).returned = none
      ∧ (send_objects_loop cb env attempt fuel).attemptsMade = fuel
      ∧ ExportLogEvent.errorAllAttemptsFailed ∈ (send_objects_loop cb env attempt fuel).events
      ∧ (send_objects_loop cb env attempt fuel).callbackCalls = [] := by
  intro fuel
  induction fuel with
  | zero =>
    intro attempt _
    exact ⟨rfl, rfl, by simp [send_objects_loop], rfl⟩
  | succ n ih =>
    intro attempt hfail
    have hcur : attemptFails (env attempt) = true :=
      hfail attempt (Nat.le_refl _) (by omega)
    have hrest : ∀ i, attempt + 1 ≤ i → i < (attempt + 1) + n → attemptFails (env i) = true :=
      fun i h1 h2 => hfail i (by omega) (by omega)
    obtain ⟨r1, r2, r3, r4⟩ := ih (attempt + 1) hrest
    cases h : env attempt with
    | postRaise m =>
      refine ⟨?_, ?_, ?_, ?_⟩ <;> simp [send_objects_loop, h, r1, r2, r3, r4]
    | httpError st tx =>
      refine ⟨?_, ?_, ?_, ?_⟩ <;> simp [send_objects_loop, h, r1, r2, r3, r4]
    | success body =>
      cases body with
      | none =>
        refine ⟨?_, ?_, ?_, ?_⟩ <;> simp [send_objects_loop, h, r1, r2, r3, r4]
      | some v =>
        rw [h] at hcur
        simp [attemptFails] at hcur

theorem send_logs_loop_callback_eq_policy (cb : Bool) (env : Nat → AttemptOutcome) :
    ∀ fuel attempt,
      (send_logs_loop cb env attempt fuel).callbackCalls
        = specCallbackPolicy cb (send_logs_loop cb env attempt fuel).returned := by
  intro fuel
  induction fuel with
  | zero => intro attempt; rfl
  | succ n ih =>
    intro attempt
    cases h : env attempt with
    | postRaise m => simp only [send_logs_loop, h]; exact ih (attempt + 1)
    | httpError st tx => simp only [send_logs_loop, h]; exact ih (attempt + 1)
    | success body =>
      cases body with
      | none => simp only [send_logs_loop, h]; exact ih (attempt + 1)
      | some v => simp only [send_logs_loop, h]; rfl

theorem send_objects_loop_callback_eq_policy (cb : Bool) (env : Nat → AttemptOutcome) :
    ∀ fuel attempt,
      (send_objects_loop cb env attempt fuel).callbackCalls
        = specCallbackPolicy cb (send_objects_loop cb env attempt fuel).returned := by
  intro fuel
  induction fuel with
  | zero => intro attempt; rfl
  | succ n ih =>
    intro attempt
    cases h : env attempt with
    | postRaise m => simp only [send_objects_loop, h]; exact ih (attempt + 1)
    | httpError st tx => simp only [send_objects_loop, h]; exact ih (attempt + 1)
    | success body =>
      cases body with
      | none => simp only [send_objects_loop, h]; exact ih (attempt + 1)
      | some v => simp only [send_objects_loop, h]; rfl

/-! ## Lemmas about delivery-time serialization -/

theorem listMapCongrMem {α β : Type} (l : List α) (f g : α → β)
    (h : ∀ a ∈ l, f a = g a) : l.map f = l.map g := by
  induction l with
  | nil => rfl
  | cons x xs ih =>
    simp only [List.map_cons]
    rw [h x (List.mem_cons_self x xs), ih (fun a ha => h a (List.mem_cons_of_mem x ha))]

theorem reachableFrom_trans {heap : PyHeap} {root a b : Nat}
    (h1 : ReachableFrom heap root a) (h2 : ReachableFrom heap a b) :
    ReachableFrom heap root b := by
  induction h2 with
  | refl => exact h1
  | step hx hmem ih => exact ReachableFrom.step ih hmem

theorem dumpObj_congr (heap heap2 : PyHeap) :
    ∀ fuel root, (∀ r, ReachableFrom heap root r → heap2 r = heap r) →
      dumpObj heap2 fuel root = dumpObj heap fuel root := by
  intro fuel
  induction fuel with
  | zero => intro root _; rfl
  | succ n ih =>
    intro root hagree
    have hroot : heap2 root = heap root := hagree root ReachableFrom.refl
    simp only [dumpObj, hroot]
    cases hobj : heap root with
    | dict es =>
      have hmap : (es.map fun kv => dumpObj heap2 n kv.2)
          = es.map fun kv => dumpObj heap n kv.2 := by
        refine listMapCongrMem es _ _ ?_
        intro kv hkv
        refine ih kv.2 ?_
        intro r hr
        refine hagree r (reachableFrom_trans (ReachableFrom.step ReachableFrom.refl ?_) hr)
        rw [hobj]
        exact List.mem_map_of_mem Prod.snd hkv
      exact congrArg
        (fun l => Option.map (fun vs => JsonVal.dict ((es.map Prod.fst).zip vs)) (seqOption l))
        hmap
    | list xs =>
      have hmap : (xs.map fun x => dumpObj heap2 n x)
          = xs.map fun x => dumpObj heap n x := by
        refine listMapCongrMem xs _ _ ?_
        intro x hx
        refine ih x ?_
        intro r hr
        refine hagree r (reachableFrom_trans (ReachableFrom.step ReachableFrom.refl ?_) hr)
        rw [hobj]
        exact hx
      exact congrArg (fun l => Option.map JsonVal.arr (seqOption l)) hmap
    | str s => rfl
    | int m => rfl
    | bool b => rfl
    | pynone => rfl

/-! ## Claim theorems for header parsing -/

/-- Claim C1: for every inbound trace-continuation header value, a
well-formed W3C-style `version-traceid-parentid-flags` value (four
dash-free fields joined by dashes) yields a parent context derived from
its trace-id and parent-id fields (their concatenation, as the code
computes `parts[1] + parts[2]`), while a malformed or partial value —
the string "garbage", or any value splitting into fewer than three
dash-separated parts — yields no parent context.  The parse is a total
function (every branch returns a value), embedding the fact that the
code never raises to application code. -/
theorem C1_inbound_header_parsing :
    (∀ v tid pid f : PyStr, '-' ∉ v → '-' ∉ tid → '-' ∉ pid → '-' ∉ f →
      startTraceParentContext
          (some (v ++ '-' :: (tid ++ '-' :: (pid ++ '-' :: f)))) none
        = some (tid ++ pid))
    ∧ startTraceParentContext (some ("garbage".toList)) none = none
    ∧ (∀ t : PyStr, (pySplitDash t).length < 3 →
        startTraceParentContext (some t) none = none) := by
  refine ⟨?_, by decide, ?_⟩
  · intro v tid pid f hv htid hpid hf
    have hne : v ++ '-' :: (tid ++ '-' :: (pid ++ '-' :: f)) ≠ [] := by
      simp
    have hmem : '-' ∈ v ++ '-' :: (tid ++ '-' :: (pid ++ '-' :: f)) := by
      simp
    have hsplit : pySplitDash (v ++ '-' :: (tid ++ '-' :: (pid ++ '-' :: f)))
        = [v, tid, pid, f] := by
      rw [pySplitDash_append v hv, pySplitDash_append tid htid,
        pySplitDash_append pid hpid, pySplitDash_no_dash f hf]
    simp only [startTraceParentContext, pyOrStrOpt, if_neg hne,
      parseTraceHeader, if_neg hne, if_pos hmem, hsplit]
    simp [List.getD]
  · intro t hlen
    by_cases hne : t = []
    · subst hne; decide
    · simp only [startTraceParentContext, pyOrStrOpt, if_neg hne,
        parseTraceHeader, if_neg hne]
      by_cases hmem : '-' ∈ t
      · simp only [if_pos hmem]
        rw [if_neg (by omega)]
      · simp [hmem]

/-- Witness for C1: the W3C example header from the specification
yields the concatenation of its trace-id and parent-id fields. -/
theorem C1_inbound_header_parsing_witness :
    startTraceParentContext
        (some ("00-4bf92f3577b34da6a3ce929d0e0e4736-00f067aa0ba902b7-01".toList)) none
      = some ("4bf92f3577b34da6a3ce929d0e0e4736".toList ++ "00f067aa0ba902b7".toList) := by
  have h := C1_inbound_header_parsing.1 "00".toList
    "4bf92f3577b34da6a3ce929d0e0e4736".toList "00f067aa0ba902b7".toList "01".toList
    (by decide) (by decide) (by decide) (by decide)
  have e : "00".toList ++ '-' :: ("4bf92f3577b34da6a3ce929d0e0e4736".toList
      ++ '-' :: ("00f067aa0ba902b7".toList ++ '-' :: "01".toList))
      = "00-4bf92f3577b34da6a3ce929d0e0e4736-00f067aa0ba902b7-01".toList := by decide
  rw [e] at h
  exact h

/-- Claim C10: when both `X-Trace-Id` and `traceparent` are present
with non-empty values, the `X-Trace-Id` value is used and `traceparent`
is ignored (the result is the parse of the `X-Trace-Id` value alone,
whatever the `traceparent` value is); consequently an `X-Trace-Id`
value containing fewer than two dashes yields no parent context,
because the parser requires at least three dash-separated parts. -/
theorem C10_xtraceid_precedence :
    (∀ x tp : PyStr, x ≠ [] →
      startTraceParentContext (some x) (some tp) = parseTraceHeader x)
    ∧ (∀ x tp : PyStr, x ≠ [] → x.count '-' < 2 →
      startTraceParentContext (some x) (some tp) = none) := by
  constructor
  · intro x tp hx
    simp [startTraceParentContext, pyOrStrOpt, if_neg hx]
  · intro x tp hx hcount
    simp only [startTraceParentContext, pyOrStrOpt, if_neg hx,
      parseTraceHeader, if_neg hx]
    by_cases hmem : '-' ∈ x
    · simp only [if_pos hmem]
      rw [if_neg (by rw [pySplitDash_length]; omega)]
    · simp [hmem]

/-- Witness for C10: a bare trace identifier in `X-Trace-Id` (no
dashes) yields no parent context even though a well-formed
`traceparent` is also present. -/
theorem C10_xtraceid_precedence_witness :
    startTraceParentContext (some ("4bf92f3577b34da6a3ce929d0e0e4736".toList))
        (some ("00-4bf92f3577b34da6a3ce929d0e0e4736-00f067aa0ba902b7-01".toList)) = none := by
  exact C10_xtraceid_precedence.2 "4bf92f3577b34da6a3ce929d0e0e4736".toList
    "00-4bf92f3577b34da6a3ce929d0e0e4736-00f067aa0ba902b7-01".toList
    (by decide) (by decide)

/-! ## Claim theorems for the worker loop -/

/-- Claim C3: whatever the jobs on the queue do when executed, the
worker loop never propagates an exception: the set of jobs it executes
is exactly the jobs ahead of the first sentinel, in FIFO order,
independent of which jobs raise, and each raising job contributes
exactly one logged error message — so one failing job never crashes
the worker nor blocks execution of subsequent jobs. -/
theorem C3_worker_survives_failing_jobs :
    ∀ q : List QueueItem,
      (workerRun q).executedIds = (jobsBeforeStop q).map JobSpec.id
      ∧ (workerRun q).errorsLogged = (jobsBeforeStop q).filterMap jobErrorLog := by
  intro q
  induction q with
  | nil => exact ⟨rfl, rfl⟩
  | cons item rest ih =>
    cases item with
    | sentinel => exact ⟨rfl, rfl⟩
    | job j =>
      refine ⟨?_, ?_⟩
      · simp [workerRun, jobsBeforeStop, ih.1]
      · cases hres : j.raises with
        | none => simp [workerRun, jobsBeforeStop, ih.2, jobErrorLog, hres]
        | some m => simp [workerRun, jobsBeforeStop, ih.2, jobErrorLog, hres]

/-- Claim C4: for a queue consisting of jobs followed by the stop
sentinel (and anything after it), the worker executes every one of
those jobs in FIFO enqueue order and terminates via the sentinel;
and on a queue containing no sentinel the worker never terminates
(`stopped = false`: it keeps waiting for work), so termination happens
only upon dequeuing the sentinel. -/
theorem C4_sentinel_drains_before_stop :
    (∀ pre post : List QueueItem, (∀ x ∈ pre, x ≠ QueueItem.sentinel) →
      (workerRun (pre ++ QueueItem.sentinel :: post)).stopped = true
      ∧ (workerRun (pre ++ QueueItem.sentinel :: post)).executedIds
          = (jobsBeforeStop pre).map JobSpec.id
      ∧ (jobsBeforeStop pre).length = pre.length)
    ∧ (∀ q : List QueueItem, (∀ x ∈ q, x ≠ QueueItem.sentinel) →
      (workerRun q).stopped = false) := by
  constructor
  · intro pre post hpre
    induction pre with
    | nil => exact ⟨rfl, rfl, rfl⟩
    | cons item rest ih =>
      cases item with
      | sentinel => exact absurd rfl (hpre _ (List.mem_cons_self _ _))
      | job j =>
        have hrest : ∀ x ∈ rest, x ≠ QueueItem.sentinel :=
          fun x hx => hpre x (List.mem_cons_of_mem _ hx)
        obtain ⟨h1, h2, h3⟩ := ih hrest
        refine ⟨?_, ?_, ?_⟩
        · simpa [workerRun] using h1
        · simp [workerRun, jobsBeforeStop, h2]
        · simp [jobsBeforeStop, h3]
  · intro q hq
    induction q with
    | nil => rfl
    | cons item rest ih =>
      cases item with
      | sentinel => exact absurd rfl (hq _ (List.mem_cons_self _ _))
      | job j =>
        have hrest : ∀ x ∈ rest, x ≠ QueueItem.sentinel :=
          fun x hx => hq x (List.mem_cons_of_mem _ hx)
        simpa [workerRun] using ih hrest

/-- Witness for C4: two jobs (the second of which raises) enqueued
before the sentinel are both executed, in order, and the worker stops;
without a sentinel the worker does not stop. -/
theorem C4_sentinel_drains_before_stop_witness :
    ((workerRun [QueueItem.job ⟨1, none⟩,
        QueueItem.job ⟨2, some "boom"⟩, QueueItem.sentinel,
        QueueItem.job ⟨3, none⟩]).stopped = true
      ∧ (workerRun [QueueItem.job ⟨1, none⟩,
          QueueItem.job ⟨2, some "boom"⟩, QueueItem.sentinel,
          QueueItem.job ⟨3, none⟩]).executedIds
          = (jobsBeforeStop [QueueItem.job ⟨1, none⟩,
              QueueItem.job ⟨2, some "boom"⟩]).map JobSpec.id
      ∧ (jobsBeforeStop [QueueItem.job ⟨1, none⟩,
          QueueItem.job ⟨2, some "boom"⟩]).length = 2)
    ∧ (workerRun [QueueItem.job ⟨1, none⟩]).stopped = false := by
  constructor
  · exact C4_sentinel_drains_before_stop.1
      [QueueItem.job ⟨1, none⟩, QueueItem.job ⟨2, some "boom"⟩]
      [QueueItem.job ⟨3, none⟩] (by decide)
  · exact C4_sentinel_drains_before_stop.2 [QueueItem.job ⟨1, none⟩] (by decide)

/-! ## Claim theorems for the worker lifecycle -/

/-- Claim C6: worker start is lazy and idempotent.  The first start
request on a fresh exporter constructs and starts exactly one worker
(created count 1, alive, `_worker_started` set); any start request
while `_worker_started` holds is a full no-op, so no second worker is
constructed; a stop request on a live worker clears `_worker_started`;
and from any state with `_worker_started` false, a sequence of
lifecycle requests containing no start request leaves
`_worker_started` false and constructs no worker — running is reached
again only through a fresh explicit start. -/
theorem C6_start_worker_lazy_idempotent :
    start_worker initialExporterState = ⟨some ⟨true⟩, true, 1⟩
    ∧ (∀ s : ExporterState, s.workerStarted = true → start_worker s = s)
    ∧ (∀ (s : ExporterState) (j : Bool), workerIsAlive s = true →
        (stop_worker s j).workerStarted = false)
    ∧ (∀ (s : ExporterState) (ops : List ExporterOp), s.workerStarted = false →
        (∀ o ∈ ops, o ≠ ExporterOp.start) →
        (runExporterOps s ops).workerStarted = false
        ∧ (runExporterOps s ops).createdCount = s.createdCount) := by
  refine ⟨rfl, ?_, ?_, ?_⟩
  · intro s hs
    simp [start_worker, hs]
  · intro s j hs
    simp [stop_worker, hs]
  · intro s ops
    induction ops generalizing s with
    | nil => intro hs _; exact ⟨hs, rfl⟩
    | cons o rest ih =>
      intro hs hops
      cases o with
      | start => exact absurd rfl (hops _ (List.mem_cons_self _ _))
      | stop j =>
        have hrest : ∀ o ∈ rest, o ≠ ExporterOp.start :=
          fun o ho => hops o (List.mem_cons_of_mem _ ho)
        have hstep : (stop_worker s j).workerStarted = false := by
          by_cases ha : workerIsAlive s = true
          · simp [stop_worker, ha]
          · simp only [stop_worker]
            rw [if_neg ha]
            exact hs
        have hcreated : (stop_worker s j).createdCount = s.createdCount := by
          by_cases ha : workerIsAlive s = true
          · simp [stop_worker, ha]
          · simp only [stop_worker]
            rw [if_neg ha]
        obtain ⟨h1, h2⟩ := ih (stop_worker s j) hstep hrest
        have key : runExporterOps s (ExporterOp.stop j :: rest)
            = runExporterOps (stop_worker s j) rest := by
          simp [runExporterOps, exporterStep]
        rw [key]
        exact ⟨h1, h2.trans hcreated⟩

/-- Witness for C6: start, start again (no-op), stop, stop again —
after the stop no further stop request brings the worker back to
running, and exactly one worker was ever constructed. -/
theorem C6_start_worker_lazy_idempotent_witness :
    start_worker (start_worker initialExporterState) = start_worker initialExporterState
    ∧ (stop_worker (start_worker initialExporterState) true).workerStarted = false
    ∧ (runExporterOps (stop_worker (start_worker initialExporterState) true)
        [ExporterOp.stop true, ExporterOp.stop false]).workerStarted = false
    ∧ (runExporterOps (stop_worker (start_worker initialExporterState) true)
        [ExporterOp.stop true, ExporterOp.stop false]).createdCount = 1 := by
  refine ⟨?_, ?_, ?_, ?_⟩
  · exact C6_start_worker_lazy_idempotent.2.1 (start_worker initialExporterState) (by decide)
  · exact C6_start_worker_lazy_idempotent.2.2.1 (start_worker initialExporterState) true
      (by decide)
  · exact (C6_start_worker_lazy_idempotent.2.2.2
      (stop_worker (start_worker initialExporterState) true)
      [ExporterOp.stop true, ExporterOp.stop false] (by decide) (by decide)).1
  · have h := (C6_start_worker_lazy_idempotent.2.2.2
      (stop_worker (start_worker initialExporterState) true)
      [ExporterOp.stop true, ExporterOp.stop false] (by decide) (by decide)).2
    rw [h]
    decide

/-! ## Claim theorems for the delivery loop -/

/-- Claim C2: for every batch delivery (logs or objects) and every
environment of attempt outcomes, the loop makes at most 3 attempts;
every delay it sleeps is exactly 1 second (no jitter, no backoff
growth); and when all 3 attempts fail it returns `None` (the batch is
dropped — nothing is returned or re-queued), logs the
all-attempts-failed error, makes exactly 3 attempts and no more, and
never invokes the callback. -/
theorem C2_delivery_bounded_retries :
    (∀ cb env, (send_logs cb env).attemptsMade ≤ 3
      ∧ (send_objects cb env).attemptsMade ≤ 3)
    ∧ (∀ cb env d, ExportLogEvent.sleep d ∈ (send_logs cb env).events → d = 1)
    ∧ (∀ cb env d, ExportLogEvent.sleep d ∈ (send_objects cb env).events → d = 1)
    ∧ (∀ cb env, (∀ i, i < 3 → attemptFails (env i) = true) →
        (send_logs cb env).returned = none
        ∧ (send_logs cb env).attemptsMade = 3
        ∧ ExportLogEvent.errorAllAttemptsFailed ∈ (send_logs cb env).events
        ∧ (send_logs cb env).callbackCalls = [])
    ∧ (∀ cb env, (∀ i, i < 3 → attemptFails (env i) = true) →
        (send_objects cb env).returned = none
        ∧ (send_objects cb env).attemptsMade = 3
        ∧ ExportLogEvent.errorAllAttemptsFailed ∈ (send_objects cb env).events
        ∧ (send_objects cb env).callbackCalls = []) := by
  refine ⟨?_, ?_, ?_, ?_, ?_⟩
  · intro cb env
    exact ⟨send_logs_loop_attempts_le cb env 3 0, send_objects_loop_attempts_le cb env 3 0⟩
  · intro cb env d hd
    exact send_logs_loop_sleep_one cb env 3 0 d hd
  · intro cb env d hd
    exact send_objects_loop_sleep_one cb env 3 0 d hd
  · intro cb env hfail
    exact send_logs_loop_all_fail cb env 3 0 (fun i _ h2 => hfail i (by omega))
  · intro cb env hfail
    exact send_objects_loop_all_fail cb env 3 0 (fun i _ h2 => hfail i (by omega))

/-- Witness for C2: with every attempt answered by an HTTP 500, both
delivery functions make exactly 3 attempts, return `None`, log the
all-attempts-failed error, and never invoke the callback. -/
theorem C2_delivery_bounded_retries_witness :
    ((send_logs false (fun _ => AttemptOutcome.httpError 500 "")).returned = none
      ∧ (send_logs false (fun _ => AttemptOutcome.httpError 500 "")).attemptsMade = 3
      ∧ ExportLogEvent.errorAllAttemptsFailed
          ∈ (send_logs false (fun _ => AttemptOutcome.httpError 500 "")).events
      ∧ (send_logs false (fun _ => AttemptOutcome.httpError 500 "")).callbackCalls = [])
    ∧ ((send_objects false (fun _ => AttemptOutcome.httpError 500 "")).returned = none
      ∧ (send_objects false (fun _ => AttemptOutcome.httpError 500 "")).attemptsMade = 3
      ∧ ExportLogEvent.errorAllAttemptsFailed
          ∈ (send_objects false (fun _ => AttemptOutcome.httpError 500 "")).events
      ∧ (send_objects false (fun _ => AttemptOutcome.httpError 500 "")).callbackCalls = []) := by
  constructor
  · exact C2_delivery_bounded_retries.2.2.2.1 false
      (fun _ => AttemptOutcome.httpError 500 "") (fun i _ => rfl)
  · exact C2_delivery_bounded_retries.2.2.2.2 false
      (fun _ => AttemptOutcome.httpError 500 "") (fun i _ => rfl)

/-- Claim C5: for every delivery (logs or objects) and every
environment, the callback invocations are exactly those the
specification policy prescribes from the delivery result: invoked with
the `updated_config` payload exactly when the delivery returned a
successfully decoded body that is a dict carrying a truthy
`updated_config` and a callback is registered; in every other case —
including every dropped batch — no invocation happens, so the
delivery-success path is the only place in the export pipeline
(`workerRun` performs none) where the callback is invoked. -/
theorem C5_callback_exactly_on_success :
    ∀ cb env,
      (send_logs cb env).callbackCalls
        = specCallbackPolicy cb (send_logs cb env).returned
      ∧ (send_objects cb env).callbackCalls
        = specCallbackPolicy cb (send_objects cb env).returned := by
  intro cb env
  exact ⟨send_logs_loop_callback_eq_policy cb env 3 0,
    send_objects_loop_callback_eq_policy cb env 3 0⟩

/-- Claim C9: an ok (2xx) response whose body fails to decode as JSON
is treated as a failed attempt: the success debug line has already
been logged, the decoding exception is caught and logged by the
`except` branch, the loop sleeps and proceeds to the next attempt with
the same batch; and when every attempt yields an ok-but-undecodable
response, the loop still performs all 3 attempts and then drops the
batch, even though the server accepted it every time. -/
theorem C9_undecodable_body_is_failed_attempt :
    (∀ cb env attempt fuel, env attempt = AttemptOutcome.success none →
      send_logs_loop cb env attempt (fuel + 1)
        = ⟨(send_logs_loop cb env (attempt + 1) fuel).returned,
            ExportLogEvent.debugSent :: ExportLogEvent.errorWhileSending
              :: ExportLogEvent.sleep 1 :: (send_logs_loop cb env (attempt + 1) fuel).events,
            (send_logs_loop cb env (attempt + 1) fuel).callbackCalls,
            (send_logs_loop cb env (attempt + 1) fuel).attemptsMade + 1⟩)
    ∧ (∀ cb, (send_logs cb (fun _ => AttemptOutcome.success none)).returned = none
        ∧ (send_logs cb (fun _ => AttemptOutcome.success none)).attemptsMade = 3
        ∧ (send_logs cb (fun _ => AttemptOutcome.success none)).callbackCalls = []
        ∧ ExportLogEvent.errorAllAttemptsFailed
            ∈ (send_logs cb (fun _ => AttemptOutcome.success none)).events) := by
  constructor
  · intro cb env attempt fuel h
    simp only [send_logs_loop, h]
  · intro cb
    refine ⟨rfl, rfl, rfl, ?_⟩
    have hev : (send_logs cb (fun _ => AttemptOutcome.success none)).events
        = [ExportLogEvent.debugSent, ExportLogEvent.errorWhileSending,
            ExportLogEvent.sleep 1, ExportLogEvent.debugSent,
            ExportLogEvent.errorWhileSending, ExportLogEvent.sleep 1,
            ExportLogEvent.debugSent, ExportLogEvent.errorWhileSending,
            ExportLogEvent.sleep 1, ExportLogEvent.errorAllAttemptsFailed] := rfl
    rw [hev]
    decide

/-- Witness for C9: a concrete first attempt with an ok response and
an undecodable body steps to the second attempt with the failure
logged and the 1-second sleep performed. -/
theorem C9_undecodable_body_is_failed_attempt_witness :
    send_logs_loop true (fun _ => AttemptOutcome.success none) 0 3
      = ⟨(send_logs_loop true (fun _ => AttemptOutcome.success none) 1 2).returned,
          ExportLogEvent.debugSent :: ExportLogEvent.errorWhileSending
            :: ExportLogEvent.sleep 1
            :: (send_logs_loop true (fun _ => AttemptOutcome.success none) 1 2).events,
          (send_logs_loop true (fun _ => AttemptOutcome.success none) 1 2).callbackCalls,
          (send_logs_loop true (fun _ => AttemptOutcome.success none) 1 2).attemptsMade + 1⟩ :=
  C9_undecodable_body_is_failed_attempt.1 true (fun _ => AttemptOutcome.success none) 0 2 rfl

/-! ## Claim theorems for the export-job snapshot -/

/-- Counterexample to claim C7 as stated ("no mutation of
producer-side state after enqueue can change what is sent"): the
batch is captured by reference and `json.dumps` runs only at delivery
time, so producer-side mutations after enqueue do change the
delivered payload.  Two concrete mutations of the enqueue-time store
refute the claim: appending a record to the batch list object itself,
and mutating a field of a record nested inside the batch — the
latter without touching the batch list object at all (third
conjunct), which is why any correct amendment must condition on the
whole object graph reachable from the batch, not just the list
object. -/
theorem C7_snapshot_counterexample :
    send_logs_payload ⟨pyListAppend enqueuePyHeap 0 3, some "proj"⟩ exampleLogBatchJob 3
      ≠ send_logs_payload enqueueProducerState exampleLogBatchJob 3
    ∧ send_logs_payload ⟨pyDictSet enqueuePyHeap 1 "msg" 3, some "proj"⟩ exampleLogBatchJob 3
      ≠ send_logs_payload enqueueProducerState exampleLogBatchJob 3
    ∧ pyDictSet enqueuePyHeap 1 "msg" 3 0 = enqueuePyHeap 0 := by
  have e0 : send_logs_payload enqueueProducerState exampleLogBatchJob 3
      = ⟨some (JsonVal.arr [JsonVal.dict [("msg", JsonVal.str "hello")]]),
          some "proj", some 1, 2⟩ := rfl
  have e1 : send_logs_payload ⟨pyListAppend enqueuePyHeap 0 3, some "proj"⟩
        exampleLogBatchJob 3
      = ⟨some (JsonVal.arr [JsonVal.dict [("msg", JsonVal.str "hello")], JsonVal.null]),
          some "proj", some 1, 2⟩ := rfl
  have e2 : send_logs_payload ⟨pyDictSet enqueuePyHeap 1 "msg" 3, some "proj"⟩
        exampleLogBatchJob 3
      = ⟨some (JsonVal.arr [JsonVal.dict [("msg", JsonVal.null)]]),
          some "proj", some 1, 2⟩ := rfl
  refine ⟨?_, ?_, rfl⟩
  · rw [e1, e0]
    intro h
    simp at h
  · rw [e2, e0]
    intro h
    simp at h

/-- Claim C7 as amended: only the config version (and the constant
`sdk_version` marker) serialized into the payload is fixed at enqueue
time — it is captured by value in the enqueued closure, whatever
producer-side mutation happens afterwards.  The batch content and the
project name are read at delivery time instead: the payload is
serialized from the object graph reachable from the referenced batch
list and from the exporter's current `_project_name`, so the
delivered payload equals the enqueue-time snapshot provided the
producer mutates neither the project name nor any object reachable
from the batch list between enqueue and delivery. -/
theorem C7_snapshot_amended :
    (∀ (st : ProducerState) (job : LogBatchJob) (fuel : Nat),
      (send_logs_payload st job fuel).v = job.configVersion
      ∧ (send_logs_payload st job fuel).sdk_version = 2)
    ∧ (∀ (st st2 : ProducerState) (job : LogBatchJob) (fuel : Nat),
      st2.projectName = st.projectName →
      (∀ r, ReachableFrom st.heap job.logsRef r → st2.heap r = st.heap r) →
      send_logs_payload st2 job fuel = send_logs_payload st job fuel) := by
  refine ⟨fun st job fuel => ⟨rfl, rfl⟩, ?_⟩
  intro st st2 job fuel hpn hagree
  simp only [send_logs_payload]
  rw [dumpObj_congr st.heap st2.heap fuel job.logsRef hagree, hpn]

/-- Witness for the amended C7: mutating an unrelated list object
(object 4, not reachable from the batch) between enqueue and delivery
leaves the delivered payload equal to the enqueue-time snapshot. -/
theorem C7_snapshot_amended_witness :
    send_logs_payload ⟨pyListAppend enqueuePyHeap 4 3, some "proj"⟩ exampleLogBatchJob 3
      = send_logs_payload enqueueProducerState exampleLogBatchJob 3 := by
  have hlt : ∀ r, ReachableFrom enqueuePyHeap 0 r → r < 3 := by
    intro r h
    induction h with
    | refl => omega
    | @step a b ha hmem ih =>
      have ha3 : a = 0 ∨ a = 1 ∨ a = 2 := by omega
      rcases ha3 with h0 | h0 | h0 <;> subst h0 <;>
        simp [enqueuePyHeap, objSuccs] at hmem <;> omega
  refine C7_snapshot_amended.2 enqueueProducerState
    ⟨pyListAppend enqueuePyHeap 4 3, some "proj"⟩ exampleLogBatchJob 3 rfl ?_
  intro r hr
  have h3 := hlt r hr
  show pyListAppend enqueuePyHeap 4 3 r = enqueuePyHeap r
  simp only [pyListAppend]
  rw [if_neg (by omega)]

/-! ## Claim theorem for the trace decorator -/

/-- Claim C8: for every wrapped function and every execution path —
normal return or an exception raised by the wrapped function — the
wrapper closes the span it opened exactly once: with OK status on
normal return (and the function result is returned unchanged), or
with ERROR status carrying the exception message before the same
exception is re-raised; and the logging context is cleared as the
very last effect on every path. -/
theorem C8_wrapper_closes_span_once :
    ∀ (name : Option String) (funcName : String) (outcome : Except PyExc JsonVal),
      countSpanEnds (treebeard_trace_wrapper name funcName outcome).2 = 1
      ∧ (∀ v, outcome = Except.ok v →
          (treebeard_trace_wrapper name funcName outcome).1 = Except.ok v
          ∧ TraceEvent.spanEnded SpanStatusCode.OK none
              ∈ (treebeard_trace_wrapper name funcName outcome).2)
      ∧ (∀ e, outcome = Except.error e →
          (treebeard_trace_wrapper name funcName outcome).1 = Except.error e
          ∧ TraceEvent.spanEnded SpanStatusCode.ERROR (some e.msg)
              ∈ (treebeard_trace_wrapper name funcName outcome).2)
      ∧ (treebeard_trace_wrapper name funcName outcome).2.getLast?
          = some TraceEvent.contextCleared := by
  intro name funcName outcome
  cases outcome with
  | ok v =>
    refine ⟨rfl, ?_, ?_, rfl⟩
    · intro v' hv
      rw [hv]
      exact ⟨rfl, by simp [treebeard_trace_wrapper]⟩
    · intro e he
      simp at he
  | error e =>
    refine ⟨rfl, ?_, ?_, rfl⟩
    · intro v hv
      simp at hv
    · intro e' he
      rw [he]
      exact ⟨rfl, by simp [treebeard_trace_wrapper]⟩

/-- Witness for C8: a wrapped call that raises `ValueError("bad")`
re-raises the same exception and ends its span with ERROR status
carrying the message; a normal call returning `null` returns it and
ends its span with OK status. -/
theorem C8_wrapper_closes_span_once_witness :
    ((treebeard_trace_wrapper (some "my_trace") "f"
        (Except.error ⟨"ValueError", "bad"⟩)).1 = Except.error ⟨"ValueError", "bad"⟩
      ∧ TraceEvent.spanEnded SpanStatusCode.ERROR (some "bad")
          ∈ (treebeard_trace_wrapper (some "my_trace") "f"
              (Except.error ⟨"ValueError", "bad"⟩)).2)
    ∧ ((treebeard_trace_wrapper none "g" (Except.ok JsonVal.null)).1
        = Except.ok JsonVal.null
      ∧ TraceEvent.spanEnded SpanStatusCode.OK none
          ∈ (treebeard_trace_wrapper none "g" (Except.ok JsonVal.null)).2) := by
  constructor
  · exact (C8_wrapper_closes_span_once (some "my_trace") "f"
      (Except.error ⟨"ValueError", "bad"⟩)).2.2.1 ⟨"ValueError", "bad"⟩ rfl
  · exact (C8_wrapper_closes_span_once none "g" (Except.ok JsonVal.null)).2.1
      JsonVal.null rfl

end TreebeardSDK
